import Mathlib

/-!
Shallow embedding of the svclink controller (github.com/cloudpilot-ai/svclink).

The embedding follows the Go sources file by file:
- label and name constants from `pkg/config`;
- the endpoint aggregator from `pkg/aggregator` (`AggregateEndpoints`,
  `getEndpointsFromCluster`);
- the EndpointSlice reconciler from `pkg/updater/service_updater.go`
  (`updateSliceForCluster`, `cleanupOrphanedSlices`, `UpdateEndpointSlices`);
- the cluster registry from `pkg/clusterlink/clusterlink.go`
  (`ListClusterInfo`, `buildClientWithVersion`, status writes);
- the filter policy from `pkg/apis/svclink/v1alpha1`
  (`ShouldExcludeNamespace`, `ShouldExcludeService`, the `To...Set` helpers);
- the service discoverer from `pkg/discoverer/service_discoverer.go`.

Kubernetes API calls are modelled as operations on explicit state values;
fallible calls take their outcome from an explicit environment (`Env`), and
label maps are modelled as functions `String → Option String` mirroring Go
maps (only lookups and single-key stores are ever performed on them).
-/

/-! Constants from `pkg/config/config.go`. -/

def ServiceNameLabel : String := "kubernetes.io/service-name"

def ClusterLabel : String := "cloudpilot.ai/svclink-cluster"

def ManagedByLabel : String := "endpointslice.kubernetes.io/managed-by"

def ManagedByValue : String := "svclink.cloudpilot.ai"

/-- `api.NamespaceSystem`, the fixed system namespace. -/
def NamespaceSystem : String := "kube-system"

/-! Data model for EndpointSlices (discovery/v1, the fields svclink touches). -/

/-- One endpoint entry of an EndpointSlice: an address list and the
`conditions.ready` flag (`*bool` in Go, so `Option Bool` here). -/
structure Endpoint where
  addresses : List String
  ready : Option Bool
  deriving DecidableEq

/-- One port entry of an EndpointSlice. -/
structure EndpointPort where
  portName : Option String
  port : Option Int
  deriving DecidableEq

/-- An owner reference as set by the reconciler. -/
structure OwnerReference where
  apiVersion : String
  kind : String
  name : String
  uid : String
  deriving DecidableEq

/-- A Go label map: lookup by key, `none` for an absent key. -/
def Labels : Type := String → Option String

/-- An EndpointSlice resource, restricted to the fields svclink reads or
writes. `nsName` is the metadata namespace. -/
structure EndpointSlice where
  name : String
  nsName : String
  labels : Labels
  endpoints : List Endpoint
  ports : List EndpointPort
  ownerReferences : List OwnerReference

/-! Aggregator: `pkg/aggregator/aggregator.go`. -/

/-- The loop-avoidance check of `getEndpointsFromCluster`: a slice is treated
as svclink-managed (synced) when it carries the `ClusterLabel` key. -/
def isSyncedSlice (s : EndpointSlice) : Bool :=
  (s.labels ClusterLabel).isSome

/-- The `EndpointSlices(namespace).List` call with label selector
`kubernetes.io/service-name=serviceName`, over a remote cluster's slice
store. -/
def listServiceSlices (store : List EndpointSlice) (nsName svcName : String) :
    List EndpointSlice :=
  store.filter fun s =>
    s.nsName == nsName && s.labels ServiceNameLabel == some svcName

/-- The slices that survive the loop-avoidance skip in the aggregation loop. -/
def nativeSlices (store : List EndpointSlice) (nsName svcName : String) :
    List EndpointSlice :=
  (listServiceSlices store nsName svcName).filter fun s => !isSyncedSlice s

/-- `allEndpoints` accumulation followed by the readiness filter: keep only
entries whose ready flag is explicitly true. -/
def readyEndpoints (slices : List EndpointSlice) : List Endpoint :=
  (slices.foldl (fun acc s => acc ++ s.endpoints) []).filter fun ep =>
    ep.ready == some true

/-- Ports are taken from the first processed slice with a non-empty port
set, mirroring the `len(ports) == 0 && len(slice.Ports) > 0` update. -/
def firstPorts (slices : List EndpointSlice) : List EndpointPort :=
  match slices.find? (fun s => !s.ports.isEmpty) with
  | some s => s.ports
  | none => []

/-- `getEndpointsFromCluster`: list the service's slices, skip synced ones,
collect endpoints, filter ready, pick the first non-empty port set. -/
def getEndpointsFromCluster (store : List EndpointSlice)
    (nsName svcName : String) : List Endpoint × List EndpointPort :=
  (readyEndpoints (nativeSlices store nsName svcName),
   firstPorts (nativeSlices store nsName svcName))

/-- `aggregator.ClusterEndpoints`. -/
structure ClusterEndpoints where
  clusterName : String
  endpoints : List Endpoint
  ports : List EndpointPort
  deriving DecidableEq

/-- The per-cluster view the aggregator consumes: the cluster's name and its
EndpointSlice listing; `none` models a failing List call (logged and the
cluster omitted). -/
structure AggClusterInfo where
  name : String
  slices : Option (List EndpointSlice)

/-- `AggregateEndpoints`: walk the contributing clusters, silently skip
clusters absent from `clusterInfos`, skip clusters whose listing fails, and
emit a `ClusterEndpoints` only when at least one ready endpoint was found. -/
def AggregateEndpoints (nsName svcName : String) (clusters : List String)
    (clusterInfos : List (String × AggClusterInfo)) : List ClusterEndpoints :=
  match clusters with
  | [] => []
  | c :: rest =>
    match clusterInfos.lookup c with
    | none => AggregateEndpoints nsName svcName rest clusterInfos
    | some info =>
      match info.slices with
      | none => AggregateEndpoints nsName svcName rest clusterInfos
      | some store =>
        if (getEndpointsFromCluster store nsName svcName).1.length > 0 then
          ⟨info.name, (getEndpointsFromCluster store nsName svcName).1,
            (getEndpointsFromCluster store nsName svcName).2⟩ ::
            AggregateEndpoints nsName svcName rest clusterInfos
        else AggregateEndpoints nsName svcName rest clusterInfos

/-- Erase svclink-managed slices from a slice store. -/
def dropSynced (store : List EndpointSlice) : List EndpointSlice :=
  store.filter fun s => !isSyncedSlice s

/-- Erase svclink-managed slices from every cluster's listing. -/
def dropSyncedInfos (clusterInfos : List (String × AggClusterInfo)) :
    List (String × AggClusterInfo) :=
  clusterInfos.map fun p => (p.1, { p.2 with slices := p.2.slices.map dropSynced })

/-! Reconciler: `pkg/updater/service_updater.go` (SliceUpdater). -/

/-- The deterministic managed-resource name:
`fmt.Sprintf("%s-svclink-%s", serviceName, ce.ClusterName)`. -/
def sliceName (svcName clusterName : String) : String :=
  svcName ++ "-svclink-" ++ clusterName

/-- The local parent Service object (name and uid used for the owner
reference). -/
structure ServiceObj where
  name : String
  uid : String
  deriving DecidableEq

/-- Store one key of a Go label map. -/
def setLabel (ls : Labels) (k v : String) : Labels :=
  fun q => if q = k then some v else ls q

/-- The slice body built by `updateSliceForCluster` for the create path. -/
def desiredSlice (nsName svcName : String) (srv : ServiceObj)
    (ce : ClusterEndpoints) : EndpointSlice where
  name := sliceName svcName ce.clusterName
  nsName := nsName
  labels := fun k =>
    if k = ServiceNameLabel then some svcName
    else if k = ClusterLabel then some ce.clusterName
    else if k = ManagedByLabel then some ManagedByValue
    else none
  endpoints := ce.endpoints
  ports := ce.ports
  ownerReferences := [⟨"v1", "Service", srv.name, srv.uid⟩]

/-- The in-place overwrite of the update path: endpoints, ports and the three
labels are rewritten; name, namespace and owner references are untouched. -/
def applyUpdate (s : EndpointSlice) (svcName : String)
    (ce : ClusterEndpoints) : EndpointSlice :=
  { s with
    endpoints := ce.endpoints
    ports := ce.ports
    labels :=
      setLabel
        (setLabel (setLabel s.labels ServiceNameLabel svcName)
          ClusterLabel ce.clusterName)
        ManagedByLabel ManagedByValue }

/-- Name/namespace match used by Get, Update and Delete targeting. -/
def isSlice (nsName n : String) (s : EndpointSlice) : Bool :=
  s.nsName == nsName && s.name == n

/-- The local cluster state the reconciler mutates: the parent Service for
the (namespace, service) under reconciliation (`none` when absent, which
makes the Get fail) and the stored EndpointSlices. -/
structure LocalState where
  service : Option ServiceObj
  slices : List EndpointSlice

/-- Outcomes of the fallible API write calls: `writeFails n` makes Create and
Update of slice `n` fail, `deleteFails n` makes Delete of slice `n` fail. -/
structure Env where
  writeFails : String → Bool
  deleteFails : String → Bool

/-- An environment in which every write and delete call succeeds. -/
def Env.ok (env : Env) : Prop :=
  (∀ n, env.writeFails n = false) ∧ (∀ n, env.deleteFails n = false)

/-- The per-cluster errors of the reconciler. -/
inductive SliceError where
  | missingParent (nsName svcName : String)
  | createFailed (slice : String)
  | updateFailed (slice : String)
  | deleteFailed (slice : String)
  deriving DecidableEq

/-- Counts of the create/update/delete API calls a run issues. -/
structure OpCounts where
  creates : Nat
  updates : Nat
  deletes : Nat
  deriving DecidableEq

def OpCounts.zero : OpCounts := ⟨0, 0, 0⟩

def OpCounts.add (a b : OpCounts) : OpCounts :=
  ⟨a.creates + b.creates, a.updates + b.updates, a.deletes + b.deletes⟩

/-- `updateSliceForCluster`: fetch the parent service (error if absent),
then create the desired slice if no slice of that name exists, else update
the existing slice in place. Returns the new state, the calls issued and the
error, if any. -/
def updateSliceForCluster (env : Env) (st : LocalState)
    (nsName svcName : String) (ce : ClusterEndpoints) :
    LocalState × OpCounts × Option SliceError :=
  match st.service with
  | none => (st, OpCounts.zero, some (.missingParent nsName svcName))
  | some srv =>
    let n := sliceName svcName ce.clusterName
    if st.slices.any (isSlice nsName n) then
      if env.writeFails n then (st, ⟨0, 1, 0⟩, some (.updateFailed n))
      else
        ({ st with
            slices := st.slices.map fun s =>
              if isSlice nsName n s then applyUpdate s svcName ce else s },
         ⟨0, 1, 0⟩, none)
    else
      if env.writeFails n then (st, ⟨1, 0, 0⟩, some (.createFailed n))
      else
        ({ st with slices := st.slices ++ [desiredSlice nsName svcName srv ce] },
         ⟨1, 0, 0⟩, none)

/-- The per-cluster loop of `UpdateEndpointSlices`: each cluster's error is
logged (collected in the returned list) and processing continues. -/
def processGroups (env : Env) (st : LocalState) (nsName svcName : String) :
    List ClusterEndpoints → LocalState × OpCounts × List SliceError
  | [] => (st, OpCounts.zero, [])
  | ce :: rest =>
    let r1 := updateSliceForCluster env st nsName svcName ce
    let r2 := processGroups env r1.1 nsName svcName rest
    (r2.1, r1.2.1.add r2.2.1, r1.2.2.toList ++ r2.2.2)

/-- The orphan predicate of `cleanupOrphanedSlices`: in this namespace,
carrying the service label for this service and any cluster label, with a
cluster label value outside the set of active clusters. -/
def isOrphanSlice (nsName svcName : String) (active : List String)
    (s : EndpointSlice) : Bool :=
  s.nsName == nsName
    && s.labels ServiceNameLabel == some svcName
    && (s.labels ClusterLabel).isSome
    && !(active.contains ((s.labels ClusterLabel).getD ""))

/-- The delete loop over the listed orphans: each Delete call targets one
slice by namespace and name; a failing Delete aborts the loop with an
error (not-found is not modelled since listed slices exist). -/
def deleteSlices (env : Env) :
    List EndpointSlice → List EndpointSlice →
      List EndpointSlice × Nat × Option SliceError
  | [], cur => (cur, 0, none)
  | o :: os, cur =>
    if env.deleteFails o.name then (cur, 1, some (.deleteFailed o.name))
    else
      let r := deleteSlices env os (cur.filter fun t => !isSlice o.nsName o.name t)
      (r.1, r.2.1 + 1, r.2.2)

/-- `cleanupOrphanedSlices`: list the slices selected by the service label
plus cluster-label existence, and delete those whose cluster label value is
not among the clusters just processed. -/
def cleanupOrphanedSlices (env : Env) (st : LocalState)
    (nsName svcName : String) (groups : List ClusterEndpoints) :
    LocalState × Nat × Option SliceError :=
  let active := groups.map (·.clusterName)
  let orphans := st.slices.filter (isOrphanSlice nsName svcName active)
  let r := deleteSlices env orphans st.slices
  ({ st with slices := r.1 }, r.2.1, r.2.2)

/-- The result of one `UpdateEndpointSlices` call: final state, API call
counts, the errors that were logged, and the value returned to the caller. -/
structure ReconcileResult where
  state : LocalState
  counts : OpCounts
  logged : List SliceError
  returned : Option SliceError

/-- `UpdateEndpointSlices`: run the per-cluster loop (errors logged,
processing continues), then orphan cleanup (its error is also only logged),
and return `nil` to the caller unconditionally. -/
def UpdateEndpointSlices (env : Env) (st : LocalState)
    (nsName svcName : String) (groups : List ClusterEndpoints) :
    ReconcileResult :=
  let r1 := processGroups env st nsName svcName groups
  let r2 := cleanupOrphanedSlices env r1.1 nsName svcName groups
  { state := r2.1
    counts := ⟨r1.2.1.creates, r1.2.1.updates, r1.2.1.deletes + r2.2.1⟩
    logged := r1.2.2 ++ r2.2.2.toList
    returned := none }

/-- The slices of a state bearing a given namespace and name. -/
def namedSlices (st : LocalState) (nsName n : String) : List EndpointSlice :=
  st.slices.filter (isSlice nsName n)

/-- A state is settled for one endpoint group when a slice with the group's
managed name exists and every such slice is a fixpoint of the update
overwrite (so re-running the update rewrites identical content). -/
def Settled (st : LocalState) (nsName svcName : String)
    (ce : ClusterEndpoints) : Prop :=
  namedSlices st nsName (sliceName svcName ce.clusterName) ≠ [] ∧
  ∀ s ∈ namedSlices st nsName (sliceName svcName ce.clusterName),
    applyUpdate s svcName ce = s

/-! Cluster registry: `pkg/clusterlink/clusterlink.go`. -/

/-- One ClusterLink descriptor as the registry sees it: name, the spec's
enabled flag, and the outcomes of the fallible steps — whether the embedded
kubeconfig base64-decodes, whether parsing it and building a client
succeeds, and the result of the version probe (`none` when the
`ServerVersion` call fails). -/
structure ClusterLinkObj where
  name : String
  enabled : Bool
  kubeconfigDecodes : Bool
  clientBuilds : Bool
  probedVersion : Option String
  deriving DecidableEq

/-- The error recorded in a registry status write. -/
inductive StatusMsg where
  | noError
  | decodeFailed
  | buildFailed
  deriving DecidableEq

/-- One write to a descriptor's status subresource performed by
`updateClusterStatus`. -/
structure StatusWrite where
  clusterName : String
  connected : Bool
  version : String
  msg : StatusMsg
  deriving DecidableEq

/-- The per-cluster entry of the registry output map (the client handle is
not modelled; the aggregator-side view of a cluster is `AggClusterInfo`). -/
structure RegClusterInfo where
  name : String
  enabled : Bool
  version : String
  deriving DecidableEq

/-- `buildClientWithVersion`: fails only when client construction fails; a
failing version probe is logged and the version left empty. -/
def buildClientWithVersion (cl : ClusterLinkObj) : Option String :=
  if cl.clientBuilds then some (cl.probedVersion.getD "") else none

/-- `ListClusterInfo`: walk the descriptors; a decode failure or a client
build failure yields a disconnected status write and skips the descriptor;
otherwise the descriptor is added to the output map and a connected status
write is issued. -/
def listClusterInfo : List ClusterLinkObj →
    List (String × RegClusterInfo) × List StatusWrite
  | [] => ([], [])
  | cl :: rest =>
    let r := listClusterInfo rest
    if cl.kubeconfigDecodes then
      match buildClientWithVersion cl with
      | some v =>
        ((cl.name, ⟨cl.name, cl.enabled, v⟩) :: r.1,
         ⟨cl.name, true, v, .noError⟩ :: r.2)
      | none => (r.1, ⟨cl.name, false, "", .buildFailed⟩ :: r.2)
    else (r.1, ⟨cl.name, false, "", .decodeFailed⟩ :: r.2)

/-! Filter policy: `pkg/apis/svclink/v1alpha1/types.go`. -/

/-- The filtering fields of `ClusterLinkSpec`. -/
structure ClusterLinkSpec where
  excludedNamespaces : List String
  includedNamespaces : List String
  excludedServices : List String
  excludedServiceNames : List String
  deriving DecidableEq

/-- `sets.New(...)` followed by `Insert(api.NamespaceSystem)`: the system
namespace is always a member. -/
def ToExcludedNamespaceSet (cls : ClusterLinkSpec) : List String :=
  if cls.excludedNamespaces.contains NamespaceSystem then cls.excludedNamespaces
  else NamespaceSystem :: cls.excludedNamespaces

def ToIncludedNamespaceSet (cls : ClusterLinkSpec) : List String :=
  cls.includedNamespaces

def ToExcludedServiceSet (cls : ClusterLinkSpec) : List String :=
  cls.excludedServices

/-- `sets.New(...)` followed by `Insert("kubernetes")`: the reserved service
name is always a member. -/
def ToExcludedServiceNameSet (cls : ClusterLinkSpec) : List String :=
  if cls.excludedServiceNames.contains "kubernetes" then cls.excludedServiceNames
  else "kubernetes" :: cls.excludedServiceNames

/-- `ShouldExcludeNamespace`: excluded if in the exclusion set, or absent
from a non-empty inclusion set. -/
def ShouldExcludeNamespace (nsName : String)
    (excludedNS includedNS : List String) : Bool :=
  if excludedNS.contains nsName then true
  else if includedNS.length > 0 && !(includedNS.contains nsName) then true
  else false

/-- `ShouldExcludeService`: excluded if `namespace/name` is in the service
exclusion set, or the bare name is in the global name exclusion set. -/
def ShouldExcludeService (nsName svcName : String)
    (excludedSvc excludedSvcName : List String) : Bool :=
  if excludedSvc.contains (nsName ++ "/" ++ svcName) then true
  else if excludedSvcName.contains svcName then true
  else false

/-! Service discoverer: `pkg/discoverer/service_discoverer.go`. -/

/-- One namespace of a remote cluster: its name and its service listing
(`none` models a failing Services List call). -/
structure RemoteNamespace where
  name : String
  svcNames : Option (List String)
  deriving DecidableEq

/-- The discoverer-side view of one connected cluster: its filter spec and
its namespace listing (`none` models a failing Namespaces List call). -/
structure DiscClusterInfo where
  spec : ClusterLinkSpec
  namespaces : Option (List RemoteNamespace)

/-- A discovered service record (`discoverer.ServiceInfo`; the service
object snapshot, used only for optional local-service creation, is not
modelled). -/
structure ServiceInfo where
  name : String
  nsName : String
  clusters : List String
  deriving DecidableEq

/-- The discovery output map keyed by `namespace/name`. -/
abbrev SvcMap : Type := List (String × ServiceInfo)

/-- Merge one surviving service into the map: create the record if absent,
then append the contributing cluster name. -/
def addService (m : SvcMap) (nsName svcName clusterName : String) : SvcMap :=
  let key := nsName ++ "/" ++ svcName
  match m.lookup key with
  | none => m ++ [(key, ⟨svcName, nsName, [clusterName]⟩)]
  | some _ =>
    m.map fun p =>
      if p.1 == key then (p.1, { p.2 with clusters := p.2.clusters ++ [clusterName] })
      else p

/-- The discovery errors (`ListError` per cluster or per namespace). -/
inductive DiscError where
  | namespacesListFailed (clusterName : String)
  | servicesListFailed (clusterName nsName : String)
  deriving DecidableEq

/-- The namespace loop of `discoverInCluster`: apply the global inclusion
override, then the per-cluster namespace policy; a failing service listing
aborts the cluster with an error, keeping the map mutated so far. -/
def discoverNamespaces (cfgIncluded : List String) (clusterName : String)
    (cls : ClusterLinkSpec) :
    List RemoteNamespace → SvcMap → SvcMap × Option DiscError
  | [], m => (m, none)
  | nsObj :: rest, m =>
    if cfgIncluded.length > 0 && !(cfgIncluded.contains nsObj.name) then
      discoverNamespaces cfgIncluded clusterName cls rest m
    else if ShouldExcludeNamespace nsObj.name (ToExcludedNamespaceSet cls)
        (ToIncludedNamespaceSet cls) then
      discoverNamespaces cfgIncluded clusterName cls rest m
    else
      match nsObj.svcNames with
      | none => (m, some (.servicesListFailed clusterName nsObj.name))
      | some svcs =>
        let m1 := svcs.foldl
          (fun acc s =>
            if ShouldExcludeService nsObj.name s (ToExcludedServiceSet cls)
                (ToExcludedServiceNameSet cls) then acc
            else addService acc nsObj.name s clusterName)
          m
        discoverNamespaces cfgIncluded clusterName cls rest m1

/-- `discoverInCluster`: list the namespaces (failure aborts the cluster),
then run the namespace loop. -/
def discoverInCluster (cfgIncluded : List String) (clusterName : String)
    (info : DiscClusterInfo) (m : SvcMap) : SvcMap × Option DiscError :=
  match info.namespaces with
  | none => (m, some (.namespacesListFailed clusterName))
  | some nss => discoverNamespaces cfgIncluded clusterName info.spec nss m

/-- The status message written by `UpdateClusterSyncError`: the sync error
wrapped as `"Service sync error: %v"`, or the empty string clearing a
previous error. -/
def describeDiscError : DiscError → String
  | .namespacesListFailed c => "failed to list namespaces in cluster " ++ c
  | .servicesListFailed c n =>
    "failed to list services in namespace " ++ n ++ " of cluster " ++ c

def syncErrorMsg : Option DiscError → String
  | none => ""
  | some e => "Service sync error: " ++ describeDiscError e

/-- One write of the sync outcome to a descriptor's status. -/
structure SyncStatusWrite where
  clusterName : String
  errorMsg : String
  deriving DecidableEq

/-- `DiscoverServices`: process each connected cluster in turn, always
writing its sync status (recording the error or clearing it), and continue
with the next cluster after a failure. -/
def DiscoverServices (cfgIncluded : List String) :
    List (String × DiscClusterInfo) → SvcMap → SvcMap × List SyncStatusWrite
  | [], m => (m, [])
  | (cName, info) :: rest, m =>
    let r1 := discoverInCluster cfgIncluded cName info m
    let r2 := DiscoverServices cfgIncluded rest r1.1
    (r2.1, ⟨cName, syncErrorMsg r1.2⟩ :: r2.2)

/-! Example fixtures used by the witness and counterexample theorems. -/

/-- A ready endpoint entry. -/
def epReady : Endpoint := ⟨["10.0.1.1"], some true⟩

/-- An endpoint entry whose ready flag is explicitly false. -/
def epNotReady : Endpoint := ⟨["10.0.1.2"], some false⟩

/-- An endpoint entry whose ready flag is unset. -/
def epUnset : Endpoint := ⟨["10.0.1.3"], none⟩

/-- A native (non-managed) EndpointSlice for service `web` in `default`. -/
def nativeWebSlice : EndpointSlice :=
  ⟨"web-abc", "default",
   fun k => if k = ServiceNameLabel then some "web" else none,
   [epReady, epNotReady, epUnset], [⟨some "http", some 8080⟩], []⟩

/-- An svclink-managed EndpointSlice for the same service, with ready
entries, carrying the cluster marker label. -/
def syncedWebSlice : EndpointSlice :=
  ⟨"web-svclink-b", "default",
   fun k =>
     if k = ServiceNameLabel then some "web"
     else if k = ClusterLabel then some "b"
     else none,
   [⟨["10.9.9.9"], some true⟩], [⟨some "http", some 8080⟩], []⟩

/-- A remote store holding one native and one managed slice for `web`. -/
def webStore : List EndpointSlice := [nativeWebSlice, syncedWebSlice]

/-- Aggregator cluster map with the single cluster `east`. -/
def eastInfos : List (String × AggClusterInfo) := [("east", ⟨"east", some webStore⟩)]

/-- An environment where every API write and delete succeeds. -/
def envAllOk : Env := ⟨fun _ => false, fun _ => false⟩

/-- An environment where writes to the slice `web-svclink-east` fail. -/
def envWebEastFails : Env := ⟨fun n => n == sliceName "web" "east", fun _ => false⟩

/-- The local parent service `web`. -/
def webService : ServiceObj := ⟨"web", "uid-1"⟩

/-- A local state with the parent service present and no slices yet. -/
def emptyWebState : LocalState := ⟨some webService, []⟩

/-- The aggregated group contributed by cluster `east` for `web`. -/
def eastGroup : ClusterEndpoints := ⟨"east", [epReady], [⟨some "http", some 8080⟩]⟩

/-- The aggregated group contributed by cluster `west` for `web`. -/
def westGroup : ClusterEndpoints := ⟨"west", [epNotReady], [⟨some "http", some 8080⟩]⟩

/-- The managed slice previously synchronized for (`web`, cluster `x`). -/
def webSliceX : EndpointSlice :=
  ⟨"web-svclink-x", "default",
   fun k =>
     if k = ServiceNameLabel then some "web"
     else if k = ClusterLabel then some "x"
     else if k = ManagedByLabel then some ManagedByValue
     else none,
   [epReady], [⟨some "http", some 8080⟩], [⟨"v1", "Service", "web", "uid-1"⟩]⟩

/-- The managed slice previously synchronized for (`web`, cluster `y`). -/
def webSliceY : EndpointSlice :=
  ⟨"web-svclink-y", "default",
   fun k =>
     if k = ServiceNameLabel then some "web"
     else if k = ClusterLabel then some "y"
     else if k = ManagedByLabel then some ManagedByValue
     else none,
   [epReady], [⟨some "http", some 8080⟩], [⟨"v1", "Service", "web", "uid-1"⟩]⟩

/-- A state previously synchronized from clusters `x` and `y`. -/
def xyState : LocalState := ⟨some webService, [webSliceX, webSliceY]⟩

/-- The group for cluster `x` in the cycle where `y` stopped contributing. -/
def xGroup : ClusterEndpoints := ⟨"x", [epReady], [⟨some "http", some 8080⟩]⟩

/-- A filter spec with no user-supplied exclusions. -/
def emptySpec : ClusterLinkSpec := ⟨[], [], [], []⟩

/-- A discoverer view of cluster `east`: namespace `apps` lists service
`web`, then listing services in namespace `data` fails. -/
def eastDiscInfo : DiscClusterInfo :=
  ⟨emptySpec, some [⟨"apps", some ["web"]⟩, ⟨"data", none⟩]⟩

/-! General list lemmas. -/

theorem filter_swap {α : Type} (p q : α → Bool) (l : List α) :
    (l.filter p).filter q = (l.filter q).filter p := by
  induction l with
  | nil => rfl
  | cons a t ih =>
    by_cases hp : p a = true <;> by_cases hq : q a = true <;>
      simp [List.filter_cons, hp, hq, ih]

theorem filter_idem {α : Type} (p : α → Bool) (l : List α) :
    (l.filter p).filter p = l.filter p := by
  induction l with
  | nil => rfl
  | cons a t ih =>
    by_cases hp : p a = true <;> simp [List.filter_cons, hp, ih]

theorem filter_not_nil {α : Type} (p : α → Bool) (l : List α) :
    (l.filter p).filter (fun a => !p a) = [] := by
  induction l with
  | nil => rfl
  | cons a t ih =>
    by_cases hp : p a = true <;> simp [List.filter_cons, hp, ih]

theorem lookup_map_val {β γ : Type} (f : β → γ) (k : String)
    (l : List (String × β)) :
    (l.map (fun p => (p.1, f p.2))).lookup k = (l.lookup k).map f := by
  induction l with
  | nil => rfl
  | cons p t ih =>
    obtain ⟨a, b⟩ := p
    by_cases h : (k == a) = true <;> simp [List.lookup, h, ih]

/-! Aggregator lemmas. -/

theorem nativeSlices_dropSynced (store : List EndpointSlice)
    (nsName svcName : String) :
    nativeSlices (dropSynced store) nsName svcName =
      nativeSlices store nsName svcName := by
  unfold nativeSlices listServiceSlices dropSynced
  rw [filter_swap (fun s => !isSyncedSlice s)
    (fun s => s.nsName == nsName && s.labels ServiceNameLabel == some svcName)
    store]
  exact filter_idem _ _

theorem getEndpointsFromCluster_dropSynced (store : List EndpointSlice)
    (nsName svcName : String) :
    getEndpointsFromCluster (dropSynced store) nsName svcName =
      getEndpointsFromCluster store nsName svcName := by
  unfold getEndpointsFromCluster
  rw [nativeSlices_dropSynced]

theorem nativeSlices_all_synced (store : List EndpointSlice)
    (nsName svcName : String) :
    nativeSlices (store.filter isSyncedSlice) nsName svcName = [] := by
  unfold nativeSlices listServiceSlices
  rw [filter_swap isSyncedSlice
    (fun s => s.nsName == nsName && s.labels ServiceNameLabel == some svcName)
    store]
  exact filter_not_nil _ _

theorem aggregate_dropSyncedInfos (nsName svcName : String)
    (clusters : List String) (infos : List (String × AggClusterInfo)) :
    AggregateEndpoints nsName svcName clusters (dropSyncedInfos infos) =
      AggregateEndpoints nsName svcName clusters infos := by
  induction clusters with
  | nil => rfl
  | cons c rest ih =>
    have hl : (dropSyncedInfos infos).lookup c = (infos.lookup c).map
        (fun i => { i with slices := i.slices.map dropSynced }) := by
      unfold dropSyncedInfos
      exact lookup_map_val
        (fun i => { i with slices := i.slices.map dropSynced }) c infos
    simp only [AggregateEndpoints, hl]
    cases hc : infos.lookup c with
    | none => simp only [hc, Option.map_none']; exact ih
    | some info =>
      simp only [hc, Option.map_some']
      cases hs : info.slices with
      | none => simp only [hs, Option.map_none']; exact ih
      | some store =>
        simp only [hs, Option.map_some', getEndpointsFromCluster_dropSynced, ih]

theorem mem_foldl_append {x : Endpoint} (l : List EndpointSlice)
    (a : List Endpoint) :
    x ∈ l.foldl (fun acc s => acc ++ s.endpoints) a ↔
      x ∈ a ∨ ∃ s ∈ l, x ∈ s.endpoints := by
  induction l generalizing a with
  | nil => simp
  | cons s t ih => simp [ih, List.mem_append, or_assoc]

theorem mem_readyEndpoints {ep : Endpoint} (slices : List EndpointSlice) :
    ep ∈ readyEndpoints slices ↔
      (∃ s ∈ slices, ep ∈ s.endpoints) ∧ ep.ready = some true := by
  unfold readyEndpoints
  rw [List.mem_filter, mem_foldl_append]
  simp

theorem aggregate_groups_ready (nsName svcName : String)
    (clusters : List String) (infos : List (String × AggClusterInfo))
    (g : ClusterEndpoints)
    (h : g ∈ AggregateEndpoints nsName svcName clusters infos) :
    (∀ ep ∈ g.endpoints, ep.ready = some true) ∧ g.endpoints ≠ [] := by
  induction clusters with
  | nil => simp [AggregateEndpoints] at h
  | cons c rest ih =>
    simp only [AggregateEndpoints] at h
    cases hc : infos.lookup c with
    | none => simp only [hc] at h; exact ih h
    | some info =>
      simp only [hc] at h
      cases hs : info.slices with
      | none => simp only [hs] at h; exact ih h
      | some store =>
        simp only [hs] at h
        by_cases hlen :
            (getEndpointsFromCluster store nsName svcName).1.length > 0
        · rw [if_pos hlen] at h
          rcases List.mem_cons.mp h with hg | hg
          · subst hg
            refine ⟨?_, ?_⟩
            · intro ep hep
              simp only [getEndpointsFromCluster] at hep
              exact ((mem_readyEndpoints _).mp hep).2
            · exact List.ne_nil_of_length_pos hlen
          · exact ih hg
        · rw [if_neg hlen] at h; exact ih h

theorem isSyncedSlice_desiredSlice (nsName svcName : String) (srv : ServiceObj)
    (ce : ClusterEndpoints) :
    isSyncedSlice (desiredSlice nsName svcName srv ce) = true := by
  simp only [isSyncedSlice, desiredSlice]
  rw [if_neg (by decide : ¬(ClusterLabel = ServiceNameLabel))]
  simp

theorem isSyncedSlice_applyUpdate (s : EndpointSlice) (svcName : String)
    (ce : ClusterEndpoints) :
    isSyncedSlice (applyUpdate s svcName ce) = true := by
  simp only [isSyncedSlice, applyUpdate, setLabel]
  rw [if_neg (by decide : ¬(ClusterLabel = ManagedByLabel))]
  simp

/-- C1 (Loop avoidance): erasing from every remote listing the slices that
carry the svclink cluster marker label does not change the Aggregator's
output, so a marked resource's entries never appear in the output for its
cluster; a listing consisting only of marked slices contributes no
endpoints even if its entries are ready; and every slice the reconciler
itself creates or updates carries the marker. -/
theorem claim_loop_avoidance :
    (∀ (nsName svcName : String) (clusters : List String)
        (clusterInfos : List (String × AggClusterInfo)),
      AggregateEndpoints nsName svcName clusters (dropSyncedInfos clusterInfos) =
        AggregateEndpoints nsName svcName clusters clusterInfos) ∧
    (∀ (store : List EndpointSlice) (nsName svcName : String),
      (getEndpointsFromCluster (store.filter isSyncedSlice) nsName svcName).1 =
        []) ∧
    (∀ (nsName svcName : String) (srv : ServiceObj) (ce : ClusterEndpoints)
        (s : EndpointSlice),
      isSyncedSlice (desiredSlice nsName svcName srv ce) = true ∧
      isSyncedSlice (applyUpdate s svcName ce) = true) := by
  refine ⟨fun n sv c i => aggregate_dropSyncedInfos n sv c i,
    fun store n sv => ?_,
    fun n sv srv ce s =>
      ⟨isSyncedSlice_desiredSlice n sv srv ce, isSyncedSlice_applyUpdate s sv ce⟩⟩
  simp only [getEndpointsFromCluster, nativeSlices_all_synced]
  rfl

/-- C7 (Readiness filtering and absence-not-empty): every endpoint entry in
the Aggregator's output has its ready flag explicitly true and every emitted
per-cluster group is non-empty; and a ready entry of a non-marked slice
matching the service does appear in the cluster's collected endpoints. -/
theorem claim_readiness_filtering :
    (∀ (nsName svcName : String) (clusters : List String)
        (clusterInfos : List (String × AggClusterInfo)) (g : ClusterEndpoints),
      g ∈ AggregateEndpoints nsName svcName clusters clusterInfos →
        (∀ ep ∈ g.endpoints, ep.ready = some true) ∧ g.endpoints ≠ []) ∧
    (∀ (store : List EndpointSlice) (nsName svcName : String)
        (s : EndpointSlice) (ep : Endpoint),
      s ∈ listServiceSlices store nsName svcName → isSyncedSlice s = false →
        ep ∈ s.endpoints → ep.ready = some true →
        ep ∈ (getEndpointsFromCluster store nsName svcName).1) := by
  constructor
  · exact fun n sv c i g h => aggregate_groups_ready n sv c i g h
  · intro store n sv s ep hmem hsync hep hready
    have hnat : s ∈ nativeSlices store n sv := by
      unfold nativeSlices
      exact List.mem_filter.mpr ⟨hmem, by simp [hsync]⟩
    show ep ∈ readyEndpoints (nativeSlices store n sv)
    exact (mem_readyEndpoints _).mpr ⟨⟨s, hnat, hep⟩, hready⟩

/-- Witness for C7: on a concrete store with one native slice (one ready,
one unready, one unset entry) and one marked slice, the aggregated group for
cluster `east` holds exactly the ready entry, and the ready entry of the
native slice is in the collected endpoints. -/
theorem claim_readiness_filtering_witness :
    ((∀ ep ∈ (ClusterEndpoints.mk "east" [epReady]
        [⟨some "http", some 8080⟩]).endpoints, ep.ready = some true) ∧
      (ClusterEndpoints.mk "east" [epReady]
        [⟨some "http", some 8080⟩]).endpoints ≠ []) ∧
    epReady ∈ (getEndpointsFromCluster webStore "default" "web").1 :=
  ⟨claim_readiness_filtering.1 "default" "web" ["east"] eastInfos
      ⟨"east", [epReady], [⟨some "http", some 8080⟩]⟩ (by decide),
   claim_readiness_filtering.2 webStore "default" "web" nativeWebSlice epReady
      (List.Mem.head _) (by decide) (by decide) (by decide)⟩

/-- C10 (Managed-resource naming is not injective): the pairs
`("a-svclink-b", "c")` and `("a", "b-svclink-c")` are distinct yet map to
the same EndpointSlice name. -/
theorem claim_sliceName_not_injective :
    (("a-svclink-b", "c") ≠ (("a" : String), ("b-svclink-c" : String))) ∧
    sliceName "a-svclink-b" "c" = sliceName "a" "b-svclink-c" :=
  ⟨by decide, by decide⟩

theorem excludedNamespaceSet_contains_system (cls : ClusterLinkSpec) :
    (ToExcludedNamespaceSet cls).contains NamespaceSystem = true := by
  unfold ToExcludedNamespaceSet
  by_cases h : cls.excludedNamespaces.contains NamespaceSystem = true
  · rw [if_pos h]; exact h
  · rw [if_neg h]; simp

theorem excludedServiceNameSet_contains_kubernetes (cls : ClusterLinkSpec) :
    (ToExcludedServiceNameSet cls).contains "kubernetes" = true := by
  unfold ToExcludedServiceNameSet
  by_cases h : cls.excludedServiceNames.contains "kubernetes" = true
  · rw [if_pos h]; exact h
  · rw [if_neg h]; simp

/-- C4 (Default-exclusion invariant): for every filter spec, the system
namespace is excluded by `ShouldExcludeNamespace` over the computed sets
(whatever the user lists, including listing it in `includedNamespaces`),
and the reserved service name `kubernetes` is excluded by
`ShouldExcludeService` in every namespace. -/
theorem claim_default_exclusion (cls : ClusterLinkSpec) (nsName : String) :
    ShouldExcludeNamespace NamespaceSystem (ToExcludedNamespaceSet cls)
        (ToIncludedNamespaceSet cls) = true ∧
    ShouldExcludeService nsName "kubernetes" (ToExcludedServiceSet cls)
        (ToExcludedServiceNameSet cls) = true := by
  constructor
  · unfold ShouldExcludeNamespace
    rw [if_pos (excludedNamespaceSet_contains_system cls)]
  · unfold ShouldExcludeService
    by_cases h :
        (ToExcludedServiceSet cls).contains (nsName ++ "/" ++ "kubernetes") = true
    · rw [if_pos h]
    · rw [if_neg h, if_pos (excludedServiceNameSet_contains_kubernetes cls)]

/-- C5 (code-bug evidence): a descriptor whose enabled flag is false, with a
decodable kubeconfig and a working client, is nevertheless added to the
registry output map and receives a connected status write — the enabled
flag is never consulted by `listClusterInfo`. -/
theorem claim_disabled_descriptor_not_skipped :
    listClusterInfo [⟨"east", false, true, true, some "v1.30.0"⟩] =
      ([("east", ⟨"east", false, "v1.30.0"⟩)],
       [⟨"east", true, "v1.30.0", StatusMsg.noError⟩]) := by
  rfl

/-- C9 counterexample: a descriptor whose client builds but whose version
probe fails is not given degraded handling: it stays in the output map and
its status write records connected with an empty version. -/
theorem claim_probe_failure_not_degraded :
    listClusterInfo [⟨"west", true, true, true, none⟩] =
      ([("west", ⟨"west", true, ""⟩)],
       [⟨"west", true, "", StatusMsg.noError⟩]) := by
  rfl

/-- C9 amended: a version-probe failure after a successful client build is
tolerated — the descriptor is still added to the output map with an empty
version string and receives a connected, error-free status write, wherever
it sits in the descriptor list. -/
theorem claim_probe_failure_tolerated (pre post : List ClusterLinkObj)
    (cl : ClusterLinkObj) (hdec : cl.kubeconfigDecodes = true)
    (hbld : cl.clientBuilds = true) (hprobe : cl.probedVersion = none) :
    ((cl.name, (⟨cl.name, cl.enabled, ""⟩ : RegClusterInfo)) ∈
        (listClusterInfo (pre ++ cl :: post)).1) ∧
    ((⟨cl.name, true, "", StatusMsg.noError⟩ : StatusWrite) ∈
        (listClusterInfo (pre ++ cl :: post)).2) := by
  induction pre with
  | nil =>
    simp only [List.nil_append, listClusterInfo, hdec, if_true,
      buildClientWithVersion, hbld, hprobe, Option.getD_none]
    exact ⟨List.mem_cons_self _ _, List.mem_cons_self _ _⟩
  | cons x xs ih =>
    simp only [List.cons_append, listClusterInfo]
    by_cases hxd : x.kubeconfigDecodes = true
    · cases hb : buildClientWithVersion x with
      | some v =>
        simp only [hxd, if_true, hb]
        exact ⟨List.mem_cons_of_mem _ ih.1, List.mem_cons_of_mem _ ih.2⟩
      | none =>
        simp only [hxd, if_true, hb]
        exact ⟨ih.1, List.mem_cons_of_mem _ ih.2⟩
    · rw [if_neg hxd]
      exact ⟨ih.1, List.mem_cons_of_mem _ ih.2⟩

/-- Witness for C9 at a concrete descriptor list. -/
theorem claim_probe_failure_tolerated_witness :
    ((("west" : String), (⟨"west", true, ""⟩ : RegClusterInfo)) ∈
        (listClusterInfo
          ([] ++ (⟨"west", true, true, true, none⟩ : ClusterLinkObj) :: [])).1) ∧
    ((⟨"west", true, "", StatusMsg.noError⟩ : StatusWrite) ∈
        (listClusterInfo
          ([] ++ (⟨"west", true, true, true, none⟩ : ClusterLinkObj) :: [])).2) :=
  claim_probe_failure_tolerated [] [] ⟨"west", true, true, true, none⟩ rfl rfl rfl

/-! Reconciler lemmas. -/

theorem cluster_ne_service_label : ClusterLabel ≠ ServiceNameLabel := by decide

theorem managed_ne_service_label : ManagedByLabel ≠ ServiceNameLabel := by decide

theorem managed_ne_cluster_label : ManagedByLabel ≠ ClusterLabel := by decide

theorem sliceName_inj_right {svcName c1 c2 : String}
    (h : sliceName svcName c1 = sliceName svcName c2) : c1 = c2 := by
  unfold sliceName at h
  have hd := congrArg String.data h
  simp only [String.data_append] at hd
  exact String.ext (List.append_cancel_left hd)

theorem applyUpdate_name (s : EndpointSlice) (svcName : String)
    (ce : ClusterEndpoints) :
    (applyUpdate s svcName ce).name = s.name ∧
    (applyUpdate s svcName ce).nsName = s.nsName := ⟨rfl, rfl⟩

theorem isSlice_applyUpdate (nsName n : String) (s : EndpointSlice)
    (svcName : String) (ce : ClusterEndpoints) :
    isSlice nsName n (applyUpdate s svcName ce) = isSlice nsName n s := rfl

theorem applyUpdate_idem (s : EndpointSlice) (svcName : String)
    (ce : ClusterEndpoints) :
    applyUpdate (applyUpdate s svcName ce) svcName ce =
      applyUpdate s svcName ce := by
  unfold applyUpdate
  congr 1
  funext q
  by_cases hM : q = ManagedByLabel
  · simp [setLabel, hM]
  · by_cases hC : q = ClusterLabel
    · simp [setLabel, hM, hC]
    · by_cases hS : q = ServiceNameLabel
      · simp [setLabel, hM, hC, hS]
      · simp [setLabel, hM, hC, hS]

theorem applyUpdate_desired (nsName svcName : String) (srv : ServiceObj)
    (ce : ClusterEndpoints) :
    applyUpdate (desiredSlice nsName svcName srv ce) svcName ce =
      desiredSlice nsName svcName srv ce := by
  unfold applyUpdate desiredSlice
  congr 1
  funext q
  by_cases hM : q = ManagedByLabel
  · simp [setLabel, hM, managed_ne_service_label, managed_ne_cluster_label]
  · by_cases hC : q = ClusterLabel
    · simp [setLabel, hM, hC, cluster_ne_service_label,
        managed_ne_cluster_label.symm]
    · by_cases hS : q = ServiceNameLabel
      · simp [setLabel, hM, hC, hS, managed_ne_service_label.symm,
          cluster_ne_service_label.symm]
      · simp [setLabel, hM, hC, hS]

theorem applyUpdate_fixed_clusterLabel {s : EndpointSlice} {svcName : String}
    {ce : ClusterEndpoints} (h : applyUpdate s svcName ce = s) :
    s.labels ClusterLabel = some ce.clusterName := by
  conv_lhs => rw [← h]
  simp [applyUpdate, setLabel, managed_ne_cluster_label.symm]

theorem filter_filter_and {α : Type} (p q : α → Bool) (l : List α) :
    (l.filter p).filter q = l.filter (fun a => p a && q a) := by
  induction l with
  | nil => rfl
  | cons a t ih =>
    by_cases hp : p a = true <;> by_cases hq : q a = true <;>
      simp [List.filter_cons, hp, hq, ih]

theorem map_if_id {α : Type} (p : α → Bool) (f : α → α) (l : List α)
    (h : ∀ a ∈ l, p a = true → f a = a) :
    l.map (fun a => if p a then f a else a) = l := by
  induction l with
  | nil => rfl
  | cons a t ih =>
    have ht := ih fun x hx hpx => h x (List.mem_cons_of_mem a hx) hpx
    by_cases hp : p a = true
    · simp [hp, h a (List.mem_cons_self a t) hp, ht]
    · simp [hp, ht]

theorem filter_map_update {α : Type} (p : α → Bool) (f : α → α) (l : List α)
    (hpf : ∀ a, p (f a) = p a) :
    (l.map (fun a => if p a then f a else a)).filter p = (l.filter p).map f := by
  induction l with
  | nil => rfl
  | cons a t ih =>
    by_cases hp : p a = true
    · simp [List.filter_cons, hp, hpf, ih]
    · simp [List.filter_cons, hp, ih]

theorem filter_map_id_on {α : Type} (q : α → Bool) (g : α → α) (l : List α)
    (hq : ∀ a, q (g a) = q a) (hid : ∀ a, q a = true → g a = a) :
    (l.map g).filter q = l.filter q := by
  induction l with
  | nil => rfl
  | cons a t ih =>
    by_cases hqa : q a = true
    · simp [List.filter_cons, hq, hqa, hid a hqa, ih]
    · simp [List.filter_cons, hq, hqa, ih]

theorem updateSlice_service (env : Env) (st : LocalState)
    (nsName svcName : String) (ce : ClusterEndpoints) :
    (updateSliceForCluster env st nsName svcName ce).1.service = st.service := by
  unfold updateSliceForCluster
  cases hsrv : st.service with
  | none => simp [hsrv]
  | some srv =>
    simp only [hsrv]
    split_ifs <;> first | rfl | exact hsrv

theorem updateSlice_error_state (env : Env) (st : LocalState)
    (nsName svcName : String) (ce : ClusterEndpoints) (e : SliceError)
    (herr : (updateSliceForCluster env st nsName svcName ce).2.2 = some e) :
    (updateSliceForCluster env st nsName svcName ce).1 = st := by
  unfold updateSliceForCluster at herr ⊢
  cases hsrv : st.service with
  | none => simp [hsrv]
  | some srv =>
    simp only [hsrv] at herr ⊢
    split_ifs at herr ⊢ <;> first | rfl | simp at herr

theorem updateSlice_settles (env : Env) (st : LocalState)
    (nsName svcName : String) (ce : ClusterEndpoints) (srv : ServiceObj)
    (hsrv : st.service = some srv)
    (hw : env.writeFails (sliceName svcName ce.clusterName) = false) :
    Settled (updateSliceForCluster env st nsName svcName ce).1 nsName svcName ce := by
  unfold updateSliceForCluster
  simp only [hsrv]
  by_cases hex :
      st.slices.any (isSlice nsName (sliceName svcName ce.clusterName)) = true
  · rw [if_pos hex, if_neg (by simp [hw])]
    unfold Settled namedSlices
    dsimp only
    rw [filter_map_update (isSlice nsName (sliceName svcName ce.clusterName))
      (fun s => applyUpdate s svcName ce) st.slices
      (fun a => isSlice_applyUpdate nsName (sliceName svcName ce.clusterName) a svcName ce)]
    constructor
    · obtain ⟨x, hx, hpx⟩ := List.any_eq_true.mp hex
      exact List.ne_nil_of_mem
        (List.mem_map_of_mem _ (List.mem_filter.mpr ⟨hx, hpx⟩))
    · intro s hs
      obtain ⟨x, _, hxe⟩ := List.mem_map.mp hs
      rw [← hxe]
      exact applyUpdate_idem x svcName ce
  · rw [if_neg hex, if_neg (by simp [hw])]
    unfold Settled namedSlices
    dsimp only
    rw [List.filter_append]
    have h1 : st.slices.filter (isSlice nsName (sliceName svcName ce.clusterName)) = [] := by
      rw [List.filter_eq_nil]
      intro a ha
      simp only [Bool.not_eq_true]
      cases hpa : isSlice nsName (sliceName svcName ce.clusterName) a
      · rfl
      · exact absurd (List.any_eq_true.mpr ⟨a, ha, hpa⟩) hex
    have h2 : [desiredSlice nsName svcName srv ce].filter
        (isSlice nsName (sliceName svcName ce.clusterName)) =
        [desiredSlice nsName svcName srv ce] := by
      simp [List.filter, isSlice, desiredSlice]
    rw [h1, h2]
    constructor
    · simp
    · intro s hs
      have hsd : s = desiredSlice nsName svcName srv ce := by simpa using hs
      rw [hsd]
      exact applyUpdate_desired nsName svcName srv ce

theorem updateSlice_other (env : Env) (st : LocalState)
    (nsName svcName : String) (ce : ClusterEndpoints) (m : String)
    (hm : m ≠ sliceName svcName ce.clusterName) :
    namedSlices (updateSliceForCluster env st nsName svcName ce).1 nsName m =
      namedSlices st nsName m := by
  unfold updateSliceForCluster
  cases hsrv : st.service with
  | none => rfl
  | some srv =>
    simp only [hsrv]
    split_ifs with h1 h2 h3
    · rfl
    · unfold namedSlices
      dsimp only
      apply filter_map_id_on
      · intro a
        by_cases hpa : isSlice nsName (sliceName svcName ce.clusterName) a = true <;>
          simp [hpa, isSlice_applyUpdate]
      · intro a ha
        have hfalse : isSlice nsName (sliceName svcName ce.clusterName) a = false := by
          cases hcn : isSlice nsName (sliceName svcName ce.clusterName) a
          · rfl
          · exfalso
            have ham := (Bool.and_eq_true _ _).mp ha
            have han := (Bool.and_eq_true _ _).mp hcn
            have hm1 : a.name = m := beq_iff_eq.mp ham.2
            have hm2 : a.name = sliceName svcName ce.clusterName := beq_iff_eq.mp han.2
            exact hm (by rw [← hm1, hm2])
        simp [hfalse]
    · rfl
    · unfold namedSlices
      dsimp only
      rw [List.filter_append]
      have hdes : [desiredSlice nsName svcName srv ce].filter (isSlice nsName m) = [] := by
        have hne : (sliceName svcName ce.clusterName == m) = false :=
          beq_eq_false_iff_ne.mpr (Ne.symm hm)
        simp [List.filter, isSlice, desiredSlice, hne]
      rw [hdes, List.append_nil]

theorem contains_of_mem {a : String} {l : List String} (h : a ∈ l) :
    l.contains a = true := by
  simpa using h

theorem processGroups_service (env : Env) (st : LocalState)
    (nsName svcName : String) (gs : List ClusterEndpoints) :
    (processGroups env st nsName svcName gs).1.service = st.service := by
  induction gs generalizing st with
  | nil => rfl
  | cons g rest ih =>
    simp only [processGroups]
    rw [ih, updateSlice_service]

theorem processGroups_other (env : Env) (st : LocalState)
    (nsName svcName : String) (gs : List ClusterEndpoints) (m : String)
    (hm : ∀ ce ∈ gs, m ≠ sliceName svcName ce.clusterName) :
    namedSlices (processGroups env st nsName svcName gs).1 nsName m =
      namedSlices st nsName m := by
  induction gs generalizing st with
  | nil => rfl
  | cons g rest ih =>
    simp only [processGroups]
    rw [ih _ fun ce hce => hm ce (List.mem_cons_of_mem g hce),
      updateSlice_other env st nsName svcName g m (hm g (List.mem_cons_self g rest))]

theorem processGroups_settles (env : Env) (st : LocalState)
    (nsName svcName : String) (gs : List ClusterEndpoints) (srv : ServiceObj)
    (hsrv : st.service = some srv) (hok : ∀ n, env.writeFails n = false)
    (hnd : (gs.map (·.clusterName)).Nodup) :
    ∀ ce ∈ gs, Settled (processGroups env st nsName svcName gs).1 nsName svcName ce := by
  induction gs generalizing st with
  | nil => intro ce hce; cases hce
  | cons g rest ih =>
    intro ce hce
    simp only [List.map_cons, List.nodup_cons] at hnd
    rcases List.mem_cons.mp hce with hg | hg
    · subst hg
      have hset : Settled (updateSliceForCluster env st nsName svcName ce).1
          nsName svcName ce :=
        updateSlice_settles env st nsName svcName ce srv hsrv (hok _)
      have hne : ∀ ce' ∈ rest,
          sliceName svcName ce.clusterName ≠ sliceName svcName ce'.clusterName := by
        intro ce' hce' heq
        exact hnd.1 (sliceName_inj_right heq ▸ List.mem_map_of_mem _ hce')
      simp only [processGroups]
      unfold Settled
      rw [processGroups_other env _ nsName svcName rest _ hne]
      exact hset
    · have hsrv' : (updateSliceForCluster env st nsName svcName g).1.service = some srv := by
        rw [updateSlice_service]; exact hsrv
      simp only [processGroups]
      exact ih _ hsrv' hnd.2 ce hg

theorem processGroups_none (env : Env) (st : LocalState)
    (nsName svcName : String) (gs : List ClusterEndpoints)
    (hsrv : st.service = none) :
    processGroups env st nsName svcName gs =
      (st, OpCounts.zero, gs.map fun _ => SliceError.missingParent nsName svcName) := by
  induction gs with
  | nil => rfl
  | cons g rest ih =>
    have hU : updateSliceForCluster env st nsName svcName g =
        (st, OpCounts.zero, some (.missingParent nsName svcName)) := by
      unfold updateSliceForCluster
      simp [hsrv]
    simp only [processGroups, hU, ih]
    simp [OpCounts.add, OpCounts.zero]

theorem processGroups_noop (env : Env) (st : LocalState)
    (nsName svcName : String) (gs : List ClusterEndpoints) (srv : ServiceObj)
    (hsrv : st.service = some srv) (hok : ∀ n, env.writeFails n = false)
    (hall : ∀ ce ∈ gs, Settled st nsName svcName ce) :
    processGroups env st nsName svcName gs = (st, ⟨0, gs.length, 0⟩, []) := by
  induction gs with
  | nil => rfl
  | cons g rest ih =>
    have hset := hall g (List.mem_cons_self g rest)
    have hU : updateSliceForCluster env st nsName svcName g = (st, ⟨0, 1, 0⟩, none) := by
      unfold updateSliceForCluster
      simp only [hsrv]
      have hex : st.slices.any (isSlice nsName (sliceName svcName g.clusterName)) = true := by
        obtain ⟨x, hx⟩ := List.exists_mem_of_ne_nil _ hset.1
        have hx' := List.mem_filter.mp hx
        exact List.any_eq_true.mpr ⟨x, hx'.1, hx'.2⟩
      rw [if_pos hex, if_neg (by simp [hok _])]
      have hmap : st.slices.map
          (fun s => if isSlice nsName (sliceName svcName g.clusterName) s
            then applyUpdate s svcName g else s) = st.slices := by
        apply map_if_id
        intro a ha hpa
        exact hset.2 a (List.mem_filter.mpr ⟨ha, hpa⟩)
      rw [hmap, ← hsrv]
    simp only [processGroups, hU]
    rw [ih fun ce hce => hall ce (List.mem_cons_of_mem g hce)]
    simp [OpCounts.add, Nat.add_comm]

theorem deleteSlices_ok (env : Env) (hok : ∀ n, env.deleteFails n = false)
    (os cur : List EndpointSlice) :
    deleteSlices env os cur =
      (cur.filter (fun t => !(os.any fun o => isSlice o.nsName o.name t)),
       os.length, none) := by
  induction os generalizing cur with
  | nil => simp [deleteSlices]
  | cons o os ih =>
    simp only [deleteSlices, hok o.name, Bool.false_eq_true, if_false, ih]
    have hs : (cur.filter fun t => !isSlice o.nsName o.name t).filter
        (fun t => !(os.any fun o' => isSlice o'.nsName o'.name t)) =
        cur.filter (fun t => !((o :: os).any fun o' => isSlice o'.nsName o'.name t)) := by
      rw [filter_filter_and]
      apply List.filter_congr
      intro t _
      simp [Bool.not_or]
    rw [hs]
    rfl

theorem cleanup_ok (env : Env) (st : LocalState) (nsName svcName : String)
    (groups : List ClusterEndpoints) (hok : ∀ n, env.deleteFails n = false) :
    cleanupOrphanedSlices env st nsName svcName groups =
      ({ st with
          slices := st.slices.filter fun t =>
            !((st.slices.filter
                (isOrphanSlice nsName svcName (groups.map (·.clusterName)))).any
              fun o => isSlice o.nsName o.name t) },
       (st.slices.filter
          (isOrphanSlice nsName svcName (groups.map (·.clusterName)))).length,
       none) := by
  simp only [cleanupOrphanedSlices]
  rw [deleteSlices_ok env hok]

theorem cleanup_result_orphanFree (env : Env) (st : LocalState)
    (nsName svcName : String) (groups : List ClusterEndpoints)
    (hok : ∀ n, env.deleteFails n = false) (s : EndpointSlice)
    (hs : s ∈ (cleanupOrphanedSlices env st nsName svcName groups).1.slices) :
    isOrphanSlice nsName svcName (groups.map (·.clusterName)) s = false := by
  rw [cleanup_ok env st nsName svcName groups hok] at hs
  have hmf := List.mem_filter.mp hs
  cases horph : isOrphanSlice nsName svcName (groups.map (·.clusterName)) s with
  | false => rfl
  | true =>
    exfalso
    have hin : s ∈ st.slices.filter
        (isOrphanSlice nsName svcName (groups.map (·.clusterName))) :=
      List.mem_filter.mpr ⟨hmf.1, horph⟩
    have hself : isSlice s.nsName s.name s = true := by simp [isSlice]
    have hany : (st.slices.filter
        (isOrphanSlice nsName svcName (groups.map (·.clusterName)))).any
        (fun o => isSlice o.nsName o.name s) = true :=
      List.any_eq_true.mpr ⟨s, hin, hself⟩
    rw [hany] at hmf
    simp at hmf

theorem cleanup_noop (env : Env) (st : LocalState) (nsName svcName : String)
    (groups : List ClusterEndpoints) (hok : ∀ n, env.deleteFails n = false)
    (hfree : ∀ s ∈ st.slices,
      isOrphanSlice nsName svcName (groups.map (·.clusterName)) s = false) :
    cleanupOrphanedSlices env st nsName svcName groups = (st, 0, none) := by
  have horph : st.slices.filter
      (isOrphanSlice nsName svcName (groups.map (·.clusterName))) = [] :=
    List.filter_eq_nil_iff.mpr fun a ha => by simp [hfree a ha]
  rw [cleanup_ok env st nsName svcName groups hok, horph]
  have hall : st.slices.filter
      (fun t => !(([] : List EndpointSlice).any fun o => isSlice o.nsName o.name t)) =
      st.slices := by
    simp
  rw [hall]
  rfl

theorem cleanup_preserves_settled (env : Env) (st : LocalState)
    (nsName svcName : String) (groups : List ClusterEndpoints)
    (hok : ∀ n, env.deleteFails n = false) (ce : ClusterEndpoints)
    (hce : ce ∈ groups) (hset : Settled st nsName svcName ce) :
    Settled (cleanupOrphanedSlices env st nsName svcName groups).1 nsName svcName ce := by
  rw [cleanup_ok env st nsName svcName groups hok]
  have hkeep : ∀ t ∈ namedSlices st nsName (sliceName svcName ce.clusterName),
      (!((st.slices.filter
          (isOrphanSlice nsName svcName (groups.map (·.clusterName)))).any
        fun o => isSlice o.nsName o.name t)) = true := by
    intro t ht
    have htf := List.mem_filter.mp ht
    have htb := (Bool.and_eq_true _ _).mp htf.2
    have hany : (st.slices.filter
        (isOrphanSlice nsName svcName (groups.map (·.clusterName)))).any
        (fun o => isSlice o.nsName o.name t) = false := by
      rw [List.any_eq_false]
      intro o ho hmatch
      have hof := List.mem_filter.mp ho
      have hob := (Bool.and_eq_true _ _).mp hmatch
      have honame : o.name = sliceName svcName ce.clusterName := by
        rw [← beq_iff_eq.mp hob.2]
        exact beq_iff_eq.mp htb.2
      have hons : o.nsName = nsName := by
        rw [← beq_iff_eq.mp hob.1]
        exact beq_iff_eq.mp htb.1
      have honamed : o ∈ namedSlices st nsName (sliceName svcName ce.clusterName) := by
        apply List.mem_filter.mpr
        refine ⟨hof.1, ?_⟩
        simp [isSlice, honame, hons]
      have hfix := hset.2 o honamed
      have hcl : o.labels ClusterLabel = some ce.clusterName :=
        applyUpdate_fixed_clusterLabel hfix
      have horph := hof.2
      unfold isOrphanSlice at horph
      rw [hcl] at horph
      have hcontains : (groups.map (·.clusterName)).contains ce.clusterName = true :=
        contains_of_mem (List.mem_map_of_mem _ hce)
      simp [hcontains] at horph
      exact horph.2 ce hce rfl
    rw [hany]
    rfl
  unfold namedSlices at hkeep
  unfold Settled namedSlices at hset ⊢
  dsimp only
  rw [filter_swap]
  rw [List.filter_eq_self.mpr hkeep]
  exact hset

theorem cleanup_service (env : Env) (st : LocalState) (nsName svcName : String)
    (groups : List ClusterEndpoints) :
    (cleanupOrphanedSlices env st nsName svcName groups).1.service = st.service := rfl

theorem updateEndpointSlices_state (env : Env) (st : LocalState)
    (nsName svcName : String) (groups : List ClusterEndpoints) :
    (UpdateEndpointSlices env st nsName svcName groups).state =
      (cleanupOrphanedSlices env (processGroups env st nsName svcName groups).1
        nsName svcName groups).1 := rfl

theorem updateEndpointSlices_counts (env : Env) (st : LocalState)
    (nsName svcName : String) (groups : List ClusterEndpoints) :
    (UpdateEndpointSlices env st nsName svcName groups).counts =
      ⟨(processGroups env st nsName svcName groups).2.1.creates,
       (processGroups env st nsName svcName groups).2.1.updates,
       (processGroups env st nsName svcName groups).2.1.deletes +
         (cleanupOrphanedSlices env (processGroups env st nsName svcName groups).1
           nsName svcName groups).2.1⟩ := rfl

/-- C2 counterexample: starting from an empty state with the parent service
present, reconciling the same single endpoint group twice issues one update
call on the second run, not zero calls. -/
theorem claim_second_run_issues_update :
    (UpdateEndpointSlices envAllOk
        (UpdateEndpointSlices envAllOk emptyWebState "default" "web"
          [eastGroup]).state
        "default" "web" [eastGroup]).counts.updates = 1 := by
  rfl

/-- C2 amended: with no API failures and at most one group per cluster name,
running `UpdateEndpointSlices` a second time over an unchanged endpoint-group
set leaves the stored EndpointSlices unchanged and issues zero create calls
and zero delete calls; the per-cluster update calls, however, are re-issued
unconditionally on the second run. -/
theorem claim_reconcile_second_run (env : Env) (st : LocalState)
    (nsName svcName : String) (groups : List ClusterEndpoints)
    (hok : env.ok) (hnd : (groups.map (·.clusterName)).Nodup) :
    (UpdateEndpointSlices env
        (UpdateEndpointSlices env st nsName svcName groups).state
        nsName svcName groups).state =
      (UpdateEndpointSlices env st nsName svcName groups).state ∧
    (UpdateEndpointSlices env
        (UpdateEndpointSlices env st nsName svcName groups).state
        nsName svcName groups).counts.creates = 0 ∧
    (UpdateEndpointSlices env
        (UpdateEndpointSlices env st nsName svcName groups).state
        nsName svcName groups).counts.deletes = 0 := by
  obtain ⟨hw, hd⟩ := hok
  have hfree : ∀ s ∈ (UpdateEndpointSlices env st nsName svcName groups).state.slices,
      isOrphanSlice nsName svcName (groups.map (·.clusterName)) s = false := by
    intro s hs
    rw [updateEndpointSlices_state] at hs
    exact cleanup_result_orphanFree env _ nsName svcName groups hd s hs
  cases hsrv : st.service with
  | none =>
    have hsrv1 : (UpdateEndpointSlices env st nsName svcName groups).state.service = none := by
      rw [updateEndpointSlices_state, cleanup_service, processGroups_service]
      exact hsrv
    have hP2 := processGroups_none env
      (UpdateEndpointSlices env st nsName svcName groups).state nsName svcName groups hsrv1
    have hC2 := cleanup_noop env
      (UpdateEndpointSlices env st nsName svcName groups).state nsName svcName groups hd hfree
    refine ⟨?_, ?_, ?_⟩
    · rw [updateEndpointSlices_state, hP2]
      rw [hC2]
    · rw [updateEndpointSlices_counts, hP2]
      rfl
    · rw [updateEndpointSlices_counts, hP2]
      dsimp only
      rw [hC2]
      rfl
  | some srv =>
    have hsrvP : (processGroups env st nsName svcName groups).1.service = some srv := by
      rw [processGroups_service]; exact hsrv
    have hsettledP := processGroups_settles env st nsName svcName groups srv hsrv hw hnd
    have hsettledS1 : ∀ ce ∈ groups,
        Settled (UpdateEndpointSlices env st nsName svcName groups).state
          nsName svcName ce := by
      intro ce hce
      rw [updateEndpointSlices_state]
      exact cleanup_preserves_settled env _ nsName svcName groups hd ce hce
        (hsettledP ce hce)
    have hsrvS1 : (UpdateEndpointSlices env st nsName svcName groups).state.service =
        some srv := by
      rw [updateEndpointSlices_state, cleanup_service]
      exact hsrvP
    have hP2 := processGroups_noop env
      (UpdateEndpointSlices env st nsName svcName groups).state nsName svcName groups
      srv hsrvS1 hw hsettledS1
    have hC2 := cleanup_noop env
      (UpdateEndpointSlices env st nsName svcName groups).state nsName svcName groups hd hfree
    refine ⟨?_, ?_, ?_⟩
    · rw [updateEndpointSlices_state, hP2]
      rw [hC2]
    · rw [updateEndpointSlices_counts, hP2]
    · rw [updateEndpointSlices_counts, hP2]
      dsimp only
      rw [hC2]
      rfl

/-- Witness for C2 at the concrete one-cluster scenario. -/
theorem claim_reconcile_second_run_witness :
    (UpdateEndpointSlices envAllOk
        (UpdateEndpointSlices envAllOk emptyWebState "default" "web"
          [eastGroup]).state
        "default" "web" [eastGroup]).state =
      (UpdateEndpointSlices envAllOk emptyWebState "default" "web"
        [eastGroup]).state ∧
    (UpdateEndpointSlices envAllOk
        (UpdateEndpointSlices envAllOk emptyWebState "default" "web"
          [eastGroup]).state
        "default" "web" [eastGroup]).counts.creates = 0 ∧
    (UpdateEndpointSlices envAllOk
        (UpdateEndpointSlices envAllOk emptyWebState "default" "web"
          [eastGroup]).state
        "default" "web" [eastGroup]).counts.deletes = 0 :=
  claim_reconcile_second_run envAllOk emptyWebState "default" "web" [eastGroup]
    ⟨fun _ => rfl, fun _ => rfl⟩ (by simp)

/-- C3 (Orphan convergence): with no delete failures and unique slice names,
orphan cleanup deletes precisely the existing labeled slices whose cluster
label value is not among the clusters just processed: the surviving slices
are exactly the non-orphans, one delete call is issued per orphan, and no
error is returned. -/
theorem claim_orphan_cleanup_exact (env : Env) (st : LocalState)
    (nsName svcName : String) (groups : List ClusterEndpoints)
    (hok : ∀ n, env.deleteFails n = false)
    (huniq : st.slices.Pairwise fun a b => a.nsName ≠ b.nsName ∨ a.name ≠ b.name) :
    (cleanupOrphanedSlices env st nsName svcName groups).1.slices =
      st.slices.filter (fun s =>
        !(isOrphanSlice nsName svcName (groups.map (·.clusterName)) s)) ∧
    (cleanupOrphanedSlices env st nsName svcName groups).2.1 =
      (st.slices.filter
        (isOrphanSlice nsName svcName (groups.map (·.clusterName)))).length ∧
    (cleanupOrphanedSlices env st nsName svcName groups).2.2 = none := by
  rw [cleanup_ok env st nsName svcName groups hok]
  refine ⟨?_, rfl, rfl⟩
  dsimp only
  apply List.filter_congr
  intro t ht
  congr 1
  cases horph : isOrphanSlice nsName svcName (groups.map (·.clusterName)) t with
  | true =>
    exact List.any_eq_true.mpr
      ⟨t, List.mem_filter.mpr ⟨ht, horph⟩, by simp [isSlice]⟩
  | false =>
    rw [List.any_eq_false]
    intro o ho hmatch
    have hof := List.mem_filter.mp ho
    have hb := (Bool.and_eq_true _ _).mp hmatch
    have h1 : t.nsName = o.nsName := beq_iff_eq.mp hb.1
    have h2 : t.name = o.name := beq_iff_eq.mp hb.2
    by_cases heq : t = o
    · subst heq
      rw [horph] at hof
      exact Bool.false_ne_true hof.2
    · have hsym : Symmetric
          (fun (a b : EndpointSlice) => a.nsName ≠ b.nsName ∨ a.name ≠ b.name) := by
        intro a b hab
        exact hab.imp Ne.symm Ne.symm
      have hR := huniq.forall hsym
      rcases hR ht hof.1 heq with hne | hne
      · exact hne h1
      · exact hne h2

/-- Witness for C3: a state previously synchronized from clusters `x` and
`y`, with only `x` still contributing, keeps exactly the non-orphan slices
(the `x` slice), issues one delete call per orphan and returns no error. -/
theorem claim_orphan_cleanup_exact_witness :
    (cleanupOrphanedSlices envAllOk xyState "default" "web" [xGroup]).1.slices =
      xyState.slices.filter (fun s =>
        !(isOrphanSlice "default" "web" ([xGroup].map (·.clusterName)) s)) ∧
    (cleanupOrphanedSlices envAllOk xyState "default" "web" [xGroup]).2.1 =
      (xyState.slices.filter
        (isOrphanSlice "default" "web" ([xGroup].map (·.clusterName)))).length ∧
    (cleanupOrphanedSlices envAllOk xyState "default" "web" [xGroup]).2.2 = none :=
  claim_orphan_cleanup_exact envAllOk xyState "default" "web" [xGroup]
    (fun _ => rfl)
    (by
      refine List.Pairwise.cons (fun b hb => ?_)
        (List.Pairwise.cons (fun b hb => absurd hb (List.not_mem_nil b))
          List.Pairwise.nil)
      have hby : b = webSliceY := by simpa using hb
      subst hby
      right
      decide)

/-- C6 counterexample: a per-cluster create failure during reconciliation is
only logged; `UpdateEndpointSlices` still returns success (`none`), not a
non-nil list of errors. -/
theorem claim_reconcile_error_swallowed :
    (UpdateEndpointSlices envWebEastFails emptyWebState "default" "web"
        [eastGroup]).returned = none ∧
    (UpdateEndpointSlices envWebEastFails emptyWebState "default" "web"
        [eastGroup]).logged = [SliceError.createFailed "web-svclink-east"] :=
  ⟨rfl, rfl⟩

/-- C6 amended: a failing cluster's error is logged and does not
short-circuit — the remaining clusters are processed from an unchanged
state and the error is prepended to the log — but it is not returned:
`UpdateEndpointSlices` always returns success to its caller. -/
theorem claim_errors_logged_not_returned (env : Env) (st : LocalState)
    (nsName svcName : String) (g : ClusterEndpoints)
    (gs : List ClusterEndpoints) (e : SliceError)
    (herr : (updateSliceForCluster env st nsName svcName g).2.2 = some e) :
    (UpdateEndpointSlices env st nsName svcName (g :: gs)).returned = none ∧
    processGroups env st nsName svcName (g :: gs) =
      ((processGroups env st nsName svcName gs).1,
       (updateSliceForCluster env st nsName svcName g).2.1.add
         (processGroups env st nsName svcName gs).2.1,
       e :: (processGroups env st nsName svcName gs).2.2) := by
  refine ⟨rfl, ?_⟩
  have hst := updateSlice_error_state env st nsName svcName g e herr
  simp only [processGroups, hst, herr, Option.toList_some, List.singleton_append]

/-- Witness for C6: the create of `web-svclink-east` fails, the `west`
group is still processed, the error is logged, and the call returns
success. -/
theorem claim_errors_logged_not_returned_witness :
    (UpdateEndpointSlices envWebEastFails emptyWebState "default" "web"
        [eastGroup, westGroup]).returned = none ∧
    processGroups envWebEastFails emptyWebState "default" "web"
        [eastGroup, westGroup] =
      ((processGroups envWebEastFails emptyWebState "default" "web" [westGroup]).1,
       (updateSliceForCluster envWebEastFails emptyWebState "default" "web"
          eastGroup).2.1.add
         (processGroups envWebEastFails emptyWebState "default" "web" [westGroup]).2.1,
       SliceError.createFailed "web-svclink-east" ::
         (processGroups envWebEastFails emptyWebState "default" "web" [westGroup]).2.2) :=
  claim_errors_logged_not_returned envWebEastFails emptyWebState "default" "web"
    eastGroup [westGroup] (SliceError.createFailed "web-svclink-east") rfl

/-! Discoverer lemmas. -/

theorem discoverWrites_names (cfg : List String)
    (infos : List (String × DiscClusterInfo)) (m : SvcMap) :
    (DiscoverServices cfg infos m).2.map (·.clusterName) = infos.map (·.1) := by
  induction infos generalizing m with
  | nil => rfl
  | cons p rest ih =>
    obtain ⟨c, i⟩ := p
    simp only [DiscoverServices, List.map_cons]
    rw [ih]

theorem discoverNamespaces_cons_skip (cfg : List String) (cName : String)
    (cls : ClusterLinkSpec) (x : RemoteNamespace) (rest : List RemoteNamespace)
    (m : SvcMap) (h1 : (cfg.length > 0 && !(cfg.contains x.name)) = true) :
    discoverNamespaces cfg cName cls (x :: rest) m =
      discoverNamespaces cfg cName cls rest m := by
  simp only [discoverNamespaces]
  rw [if_pos h1]

theorem discoverNamespaces_cons_excluded (cfg : List String) (cName : String)
    (cls : ClusterLinkSpec) (x : RemoteNamespace) (rest : List RemoteNamespace)
    (m : SvcMap) (h1 : (cfg.length > 0 && !(cfg.contains x.name)) = false)
    (h2 : ShouldExcludeNamespace x.name (ToExcludedNamespaceSet cls)
      (ToIncludedNamespaceSet cls) = true) :
    discoverNamespaces cfg cName cls (x :: rest) m =
      discoverNamespaces cfg cName cls rest m := by
  simp only [discoverNamespaces]
  rw [if_neg (by rw [h1]; simp), if_pos h2]

theorem discoverNamespaces_cons_fail (cfg : List String) (cName : String)
    (cls : ClusterLinkSpec) (x : RemoteNamespace) (rest : List RemoteNamespace)
    (m : SvcMap) (h1 : (cfg.length > 0 && !(cfg.contains x.name)) = false)
    (h2 : ShouldExcludeNamespace x.name (ToExcludedNamespaceSet cls)
      (ToIncludedNamespaceSet cls) = false)
    (hsv : x.svcNames = none) :
    discoverNamespaces cfg cName cls (x :: rest) m =
      (m, some (.servicesListFailed cName x.name)) := by
  simp only [discoverNamespaces]
  rw [if_neg (by rw [h1]; simp), if_neg (by rw [h2]; simp), hsv]

theorem discoverNamespaces_cons_svcs (cfg : List String) (cName : String)
    (cls : ClusterLinkSpec) (x : RemoteNamespace) (rest : List RemoteNamespace)
    (m : SvcMap) (svcs : List String)
    (h1 : (cfg.length > 0 && !(cfg.contains x.name)) = false)
    (h2 : ShouldExcludeNamespace x.name (ToExcludedNamespaceSet cls)
      (ToIncludedNamespaceSet cls) = false)
    (hsv : x.svcNames = some svcs) :
    discoverNamespaces cfg cName cls (x :: rest) m =
      discoverNamespaces cfg cName cls rest
        (svcs.foldl
          (fun acc s =>
            if ShouldExcludeService x.name s (ToExcludedServiceSet cls)
                (ToExcludedServiceNameSet cls) then acc
            else addService acc x.name s cName)
          m) := by
  simp only [discoverNamespaces]
  rw [if_neg (by rw [h1]; simp), if_neg (by rw [h2]; simp), hsv]

theorem discoverNamespaces_fails_at (cfg : List String) (cName : String)
    (cls : ClusterLinkSpec) (pre post : List RemoteNamespace)
    (nsBad : RemoteNamespace) (m : SvcMap)
    (hpre : (discoverNamespaces cfg cName cls pre m).2 = none)
    (hskip : (cfg.length > 0 && !(cfg.contains nsBad.name)) = false)
    (hexcl : ShouldExcludeNamespace nsBad.name (ToExcludedNamespaceSet cls)
        (ToIncludedNamespaceSet cls) = false)
    (hfail : nsBad.svcNames = none) :
    discoverNamespaces cfg cName cls (pre ++ nsBad :: post) m =
      ((discoverNamespaces cfg cName cls pre m).1,
       some (.servicesListFailed cName nsBad.name)) := by
  induction pre generalizing m with
  | nil =>
    rw [List.nil_append,
      discoverNamespaces_cons_fail cfg cName cls nsBad post m hskip hexcl hfail]
    rfl
  | cons x xs ih =>
    rw [List.cons_append]
    by_cases h1 : (cfg.length > 0 && !(cfg.contains x.name)) = true
    · rw [discoverNamespaces_cons_skip cfg cName cls x (xs ++ nsBad :: post) m h1,
        discoverNamespaces_cons_skip cfg cName cls x xs m h1]
      rw [discoverNamespaces_cons_skip cfg cName cls x xs m h1] at hpre
      exact ih m hpre
    · have h1f : (cfg.length > 0 && !(cfg.contains x.name)) = false :=
        Bool.not_eq_true _ ▸ h1
      by_cases h2 : ShouldExcludeNamespace x.name (ToExcludedNamespaceSet cls)
          (ToIncludedNamespaceSet cls) = true
      · rw [discoverNamespaces_cons_excluded cfg cName cls x (xs ++ nsBad :: post) m h1f h2,
          discoverNamespaces_cons_excluded cfg cName cls x xs m h1f h2]
        rw [discoverNamespaces_cons_excluded cfg cName cls x xs m h1f h2] at hpre
        exact ih m hpre
      · have h2f : ShouldExcludeNamespace x.name (ToExcludedNamespaceSet cls)
            (ToIncludedNamespaceSet cls) = false := Bool.not_eq_true _ ▸ h2
        cases hsv : x.svcNames with
        | none =>
          rw [discoverNamespaces_cons_fail cfg cName cls x xs m h1f h2f hsv] at hpre
          simp at hpre
        | some svcs =>
          rw [discoverNamespaces_cons_svcs cfg cName cls x (xs ++ nsBad :: post) m
              svcs h1f h2f hsv,
            discoverNamespaces_cons_svcs cfg cName cls x xs m svcs h1f h2f hsv]
          rw [discoverNamespaces_cons_svcs cfg cName cls x xs m svcs h1f h2f hsv] at hpre
          exact ih _ hpre

/-- C8 amended: when listing services in one namespace of a remote cluster
fails, the failure is recorded in that cluster's status write with the
error string `"Service sync error: …"` (not `"discovery error: …"`); the
cluster's services discovered before the failing namespace remain in the
output map (namespaces from the failure point on are not processed); and
every other cluster in the list is still processed and receives its own
status write. -/
theorem claim_discovery_failure_scoping (cfg : List String) (cName : String)
    (info : DiscClusterInfo) (rest : List (String × DiscClusterInfo)) (m : SvcMap)
    (pre post : List RemoteNamespace) (nsBad : RemoteNamespace)
    (hns : info.namespaces = some (pre ++ nsBad :: post))
    (hpre : (discoverNamespaces cfg cName info.spec pre m).2 = none)
    (hskip : (cfg.length > 0 && !(cfg.contains nsBad.name)) = false)
    (hexcl : ShouldExcludeNamespace nsBad.name (ToExcludedNamespaceSet info.spec)
        (ToIncludedNamespaceSet info.spec) = false)
    (hfail : nsBad.svcNames = none) :
    discoverInCluster cfg cName info m =
      ((discoverNamespaces cfg cName info.spec pre m).1,
       some (.servicesListFailed cName nsBad.name)) ∧
    (DiscoverServices cfg ((cName, info) :: rest) m).2 =
      ⟨cName, "Service sync error: " ++
          describeDiscError (.servicesListFailed cName nsBad.name)⟩ ::
        (DiscoverServices cfg rest (discoverInCluster cfg cName info m).1).2 ∧
    (∀ (infos : List (String × DiscClusterInfo)) (m0 : SvcMap),
      (DiscoverServices cfg infos m0).2.map (·.clusterName) = infos.map (·.1)) := by
  have h1 : discoverInCluster cfg cName info m =
      ((discoverNamespaces cfg cName info.spec pre m).1,
       some (.servicesListFailed cName nsBad.name)) := by
    unfold discoverInCluster
    rw [hns]
    exact discoverNamespaces_fails_at cfg cName info.spec pre post nsBad m
      hpre hskip hexcl hfail
  refine ⟨h1, ?_, fun infos m0 => discoverWrites_names cfg infos m0⟩
  simp only [DiscoverServices]
  rw [h1]
  rfl

/-- C8 counterexample: with namespace `apps` listing service `web` before
listing services in namespace `data` fails, the failing cluster `east`
still appears as a contributor of `apps/web` in the output map (its
contribution is not omitted), and the recorded error string begins with
`"Service sync error: "`, not `"discovery error: "`. -/
theorem claim_discovery_contribution_not_omitted :
    (DiscoverServices [] [("east", eastDiscInfo)] []).1 =
      [("apps/web", ⟨"web", "apps", ["east"]⟩)] ∧
    (DiscoverServices [] [("east", eastDiscInfo)] []).2 =
      [⟨"east",
        "Service sync error: failed to list services in namespace data of cluster east"⟩] ∧
    ("discovery error: ".data.isPrefixOf
      "Service sync error: failed to list services in namespace data of cluster east".data) =
      false :=
  ⟨rfl, rfl, by decide⟩

/-- Witness for C8 at the concrete east cluster. -/
theorem claim_discovery_failure_scoping_witness :
    discoverInCluster [] "east" eastDiscInfo [] =
      ((discoverNamespaces [] "east" eastDiscInfo.spec
          [⟨"apps", some ["web"]⟩] []).1,
       some (.servicesListFailed "east" "data")) ∧
    (DiscoverServices [] [("east", eastDiscInfo)] []).2 =
      ⟨"east", "Service sync error: " ++
          describeDiscError (.servicesListFailed "east" "data")⟩ ::
        (DiscoverServices [] []
          (discoverInCluster [] "east" eastDiscInfo []).1).2 ∧
    (∀ (infos : List (String × DiscClusterInfo)) (m0 : SvcMap),
      (DiscoverServices [] infos m0).2.map (·.clusterName) = infos.map (·.1)) :=
  claim_discovery_failure_scoping [] "east" eastDiscInfo [] []
    [⟨"apps", some ["web"]⟩] [] ⟨"data", none⟩ rfl rfl rfl rfl rfl
